import Mathlib

/-!
Verification of `src/infrahub_sync/adapters/utils.py`: the dotted-path
value resolver `get_value` and the identifier deriver
`derive_identifier_key`, shallowly embedded over a model of Python
values.
-/

namespace InfrahubSync

/-- A Python value as the two utility functions observe it: `None`, a
boolean, an integer, a string, a dict (insertion-ordered association
list with string keys), or an attribute-bearing object (its attribute
table, likewise insertion-ordered). -/
inductive Value where
  | vNone : Value
  | vBool (b : Bool) : Value
  | vInt (n : Int) : Value
  | vStr (s : String) : Value
  | vDict (entries : List (String × Value)) : Value
  | vObj (attrs : List (String × Value)) : Value

open Value

/-- Python truthiness (`bool(v)`): `None` is falsy, numbers are falsy at
zero, strings and containers are falsy when empty, and a plain object
is truthy. -/
def truthy : Value → Bool
  | vNone => false
  | vBool b => b
  | vInt n => n != 0
  | vStr s => !s.isEmpty
  | vDict es => !es.isEmpty
  | vObj _ => true

/-- `v is None` in Python. -/
def isNoneV : Value → Bool
  | vNone => true
  | _ => false

/-- First binding of key `k` in an association list (dict keys are
unique, so the first binding is the binding). -/
def lookupD (es : List (String × Value)) (k : String) : Option Value :=
  (es.find? (fun p => p.1 == k)).map (fun p => p.2)

/-- Python's `dict.get(k)`: the stored value, or `None` when the key is
absent. -/
def dictGet (es : List (String × Value)) (k : String) : Value :=
  (lookupD es k).getD vNone

/-- Plain `getattr(obj, name)`: the attribute's value, or an
`AttributeError` when the object has no such attribute.  In the model a
scalar has no attributes. -/
def getattrRaise (obj : Value) (name : String) : Except String Value :=
  match obj with
  | vObj attrs =>
    match lookupD attrs name with
    | some v => Except.ok v
    | none => Except.error "AttributeError"
  | _ => Except.error "AttributeError"

/-- `getattr(obj, name, default)`: the raising lookup with the
`AttributeError` caught and replaced by the default. -/
def getattrDefault (obj : Value) (name : String) (deflt : Value) : Value :=
  match getattrRaise obj name with
  | Except.ok v => v
  | Except.error _ => deflt

/-- The field access both branches of `get_value` perform:
`obj.get(name) if isinstance(obj, dict) else getattr(obj, name, None)`. -/
def access (obj : Value) (name : String) : Value :=
  match obj with
  | vDict es => dictGet es name
  | o => getattrDefault o name vNone

/-- `get_value` over the list of dot-separated segments of the path.
The source splits off the first segment with `name.split(".", maxsplit=1)`
and recurses on the remainder, which walks exactly the full list of
segments; here the recursion is phrased directly on that list.  A path
with no dot is a single segment and is looked up directly; otherwise
the head segment's value gates the recursion: a falsy intermediate
value stops resolution with `None`. -/
def get_value_segs (obj : Value) (segs : List String) : Value :=
  match segs with
  | [] => vNone
  | [last] => access obj last
  | first :: rest =>
    let sub := access obj first
    if truthy sub then get_value_segs sub rest else vNone

/-- Splitting a character list at every `'.'` (the segment list of a
dotted path), as Python's `str.split(".")`. -/
def splitSegsAux : List Char → List (List Char)
  | [] => [[]]
  | c :: rest =>
    if c = '.' then [] :: splitSegsAux rest
    else
      match splitSegsAux rest with
      | [] => [[c]]
      | s :: ss => (c :: s) :: ss

/-- The dot-separated segments of a path string. -/
def splitDots (s : String) : List String :=
  (splitSegsAux s.data).map (fun cs => String.mk cs)

/-- `get_value(obj, name)` from the source: resolve the dotted path
`name` against `obj`. -/
def get_value (obj : Value) (name : String) : Value :=
  get_value_segs obj (splitDots name)

/-- Python's `key.endswith("_id")` test combined with the truthiness
test from the loop body `if key.endswith("_id") and value`. -/
def idCandidate (p : String × Value) : Bool :=
  "_id".data.isSuffixOf p.1.data && truthy p.2

/-- The `for key, value in obj.items(): ... break` loop of
`derive_identifier_key`: the value of the first entry whose key ends in
`_id` and whose value is truthy, `None` when the loop finds none. -/
def scan_id (entries : List (String × Value)) : Value :=
  match entries with
  | [] => vNone
  | p :: rest => if idCandidate p then p.2 else scan_id rest

/-- `derive_identifier_key(obj)` from the source: take `obj.get("id")`;
when that is `None`, scan for the first truthy `_id`-suffixed entry;
when still `None`, raise `ValueError`. -/
def derive_identifier_key (obj : List (String × Value)) : Except String Value :=
  let objId := dictGet obj "id"
  let objId := if isNoneV objId then scan_id obj else objId
  if isNoneV objId then Except.error "No suitable identifier key found in object"
  else Except.ok objId

/-- The field access of `get_value` in the host's exception monad.
`dict.get` is total; the non-mapping branch calls the fallible
`getattr` but with a default, so the `AttributeError` is caught and
replaced by `None` and no error escapes. -/
def accessE (obj : Value) (name : String) : Except String Value :=
  match obj with
  | vDict es => Except.ok (dictGet es name)
  | o =>
    match getattrRaise o name with
    | Except.ok v => Except.ok v
    | Except.error _ => Except.ok vNone

/-- `get_value` in the host's exception monad: any error produced by a
field access would propagate through the bind, exactly as a raised
exception would in the source. -/
def get_valueE (obj : Value) (segs : List String) : Except String Value :=
  match segs with
  | [] => Except.ok vNone
  | [last] => accessE obj last
  | first :: rest => do
    let sub ← accessE obj first
    if truthy sub then get_valueE sub rest else pure vNone

/-- `get_value` instrumented with a recursion budget: each recursive
call of the source consumes one unit, and an exhausted budget yields
`none`.  Used to state that the recursion depth is the number of path
segments. -/
def get_value_gas (gas : Nat) (obj : Value) (segs : List String) : Option Value :=
  match gas, segs with
  | 0, _ => none
  | _ + 1, [] => some vNone
  | _ + 1, [last] => some (access obj last)
  | g + 1, first :: rest =>
    let sub := access obj first
    if truthy sub then get_value_gas g sub rest else some vNone

/-- Replace the value stored under the first binding of `k`, leaving
the list unchanged when `k` is absent. -/
def replaceFirst : List (String × Value) → String → Value → List (String × Value)
  | [], _, _ => []
  | p :: rest, k, v => if p.1 == k then (p.1, v) :: rest else p :: replaceFirst rest k v

/-- Store the (possibly mutated) sub-record back into its parent: in
the host language the sub-record is aliased by the parent, so any
mutation of it is visible through the parent's field. -/
def writeBack (obj : Value) (k : String) (v : Value) : Value :=
  match obj with
  | vDict es => vDict (replaceFirst es k v)
  | vObj attrs => vObj (replaceFirst attrs k v)
  | o => o

/-- `get_value` with the record's state threaded explicitly: each call
returns its result together with the post-call state of the record it
was given.  The field accesses the source performs are reads, so they
return the record unchanged; the recursive call's post-state is written
back through the aliased field. -/
def get_valueS (obj : Value) (segs : List String) : Value × Value :=
  match segs with
  | [] => (vNone, obj)
  | [last] => (access obj last, obj)
  | first :: rest =>
    let sub := access obj first
    if truthy sub then
      let r := get_valueS sub rest
      (r.1, writeBack obj first r.2)
    else (vNone, obj)

/-- The `_id`-scanning loop with the dict's state threaded explicitly:
the loop only reads each entry, so each step returns the entry
unchanged. -/
def scan_idS : List (String × Value) → Value × List (String × Value)
  | [] => (vNone, [])
  | p :: rest =>
    if idCandidate p then (p.2, p :: rest)
    else
      let r := scan_idS rest
      (r.1, p :: r.2)

/-- `derive_identifier_key` with the dict's state threaded explicitly:
`obj.get("id")` and the scanning loop are reads and return the dict
unchanged. -/
def deriveS (obj : List (String × Value)) : Except String Value × List (String × Value) :=
  let r0 : Value × List (String × Value) := (dictGet obj "id", obj)
  let r1 := if isNoneV r0.1 then scan_idS r0.2 else r0
  if isNoneV r1.1 then (Except.error "No suitable identifier key found in object", r1.2)
  else (Except.ok r1.1, r1.2)

/-! ## Helper lemmas -/

lemma isNoneV_vNone : isNoneV vNone = true := rfl

lemma isNoneV_eq_true_iff (v : Value) : isNoneV v = true ↔ v = vNone := by
  cases v <;> simp [isNoneV]

lemma isNoneV_eq_false_of_ne {v : Value} (h : v ≠ vNone) : isNoneV v = false := by
  cases v <;> simp_all [isNoneV]

lemma truthy_ne_vNone {v : Value} (h : truthy v = true) : v ≠ vNone := by
  cases v <;> simp_all [truthy]

lemma scan_id_of_find_some {es : List (String × Value)} {p : String × Value}
    (h : es.find? idCandidate = some p) : scan_id es = p.2 := by
  induction es with
  | nil => simp at h
  | cons q rest ih =>
    by_cases hq : idCandidate q
    · rw [List.find?_cons_of_pos _ hq] at h
      cases h
      simp [scan_id, hq]
    · rw [List.find?_cons_of_neg _ (by simp [hq])] at h
      simp [scan_id, hq, ih h]

lemma scan_id_of_find_none {es : List (String × Value)}
    (h : es.find? idCandidate = none) : scan_id es = vNone := by
  induction es with
  | nil => rfl
  | cons q rest ih =>
    by_cases hq : idCandidate q
    · rw [List.find?_cons_of_pos _ hq] at h
      cases h
    · rw [List.find?_cons_of_neg _ (by simp [hq])] at h
      simp [scan_id, hq, ih h]

lemma derive_of_none_id {es : List (String × Value)} {p : String × Value}
    (h1 : dictGet es "id" = vNone)
    (h2 : es.find? idCandidate = some p) :
    derive_identifier_key es = Except.ok p.2 := by
  have hc : idCandidate p := List.find?_some h2
  have ht : truthy p.2 = true := by
    simp only [idCandidate, Bool.and_eq_true] at hc
    exact hc.2
  have hs : scan_id es = p.2 := scan_id_of_find_some h2
  have hn : isNoneV p.2 = false := isNoneV_eq_false_of_ne (truthy_ne_vNone ht)
  simp [derive_identifier_key, h1, hs, hn, isNoneV_vNone]

lemma ok_then {α β : Type} (a : α) (f : α → Except String β) :
    (Except.ok a >>= f) = f a := rfl

lemma accessE_eq_ok (obj : Value) (name : String) :
    accessE obj name = Except.ok (access obj name) := by
  cases obj with
  | vDict es => rfl
  | vObj attrs =>
    simp only [accessE, access, getattrDefault, getattrRaise]
    cases lookupD attrs name <;> rfl
  | vNone => rfl
  | vBool b => rfl
  | vInt n => rfl
  | vStr s => rfl

lemma replaceFirst_self {es : List (String × Value)} {k : String} {v : Value}
    (h : lookupD es k = some v) : replaceFirst es k v = es := by
  induction es with
  | nil => simp [lookupD] at h
  | cons p rest ih =>
    by_cases hk : p.1 == k
    · simp only [lookupD, List.find?, hk, Option.map] at h
      have hv : p.2 = v := by injection h
      subst hv
      simp [replaceFirst, hk]
    · simp only [lookupD, List.find?, hk] at h
      simp [replaceFirst, hk, ih h]

lemma access_truthy_lookup {es : List (String × Value)} {k : String}
    (h : truthy (dictGet es k) = true) : lookupD es k = some (dictGet es k) := by
  cases hl : lookupD es k with
  | none => rw [dictGet, hl] at h; simp [truthy] at h
  | some v => simp [dictGet, hl]

lemma writeBack_access {obj : Value} {k : String}
    (h : truthy (access obj k) = true) : writeBack obj k (access obj k) = obj := by
  cases obj with
  | vDict es =>
    have hl := @access_truthy_lookup es k h
    simp [writeBack, access, replaceFirst_self hl]
  | vObj attrs =>
    simp only [access, getattrDefault, getattrRaise] at h ⊢
    cases hl : lookupD attrs k with
    | none => simp_all [truthy]
    | some v => simp_all [writeBack, replaceFirst_self hl]
  | vNone => rfl
  | vBool b => rfl
  | vInt n => rfl
  | vStr s => rfl

lemma get_valueS_eq (obj : Value) (segs : List String) :
    get_valueS obj segs = (get_value_segs obj segs, obj) := by
  induction segs generalizing obj with
  | nil => rfl
  | cons a rest ih =>
    cases rest with
    | nil => rfl
    | cons b t =>
      by_cases ht : truthy (access obj a)
      · simp [get_valueS, get_value_segs, ht, ih, writeBack_access ht]
      · simp [get_valueS, get_value_segs, ht]

lemma scan_idS_eq (es : List (String × Value)) : scan_idS es = (scan_id es, es) := by
  induction es with
  | nil => rfl
  | cons p rest ih =>
    by_cases hp : idCandidate p <;> simp [scan_idS, scan_id, hp, ih]

lemma deriveS_eq (es : List (String × Value)) :
    deriveS es = (derive_identifier_key es, es) := by
  unfold deriveS derive_identifier_key
  by_cases h : isNoneV (dictGet es "id")
  · simp only [h, if_true, scan_idS_eq]
    by_cases h2 : isNoneV (scan_id es) <;> simp [h2]
  · simp [h]

/-! ## Claim theorems -/

/-- C1, counterexample: the claim extends rule 2 to every falsy `id`
value, empty values included, but the source only falls through to rule
2 when `obj.get("id") is None`.  On `{"id": "", "device_id": "X1"}` the
`id` entry is falsy (empty) and a later truthy `device_id` entry
exists, yet `derive_identifier_key` returns `""`, not `"X1"`. -/
theorem derive_empty_id_cex :
    derive_identifier_key [("id", vStr ""), ("device_id", vStr "X1")] =
      Except.ok (vStr "") ∧
    derive_identifier_key [("id", vStr ""), ("device_id", vStr "X1")] ≠
      Except.ok (vStr "X1") := by
  refine ⟨rfl, fun h => ?_⟩
  have h2 : vStr "" = vStr "X1" := Except.ok.inj h
  have h3 : "" = "X1" := by injection h2
  exact absurd h3 (by decide)

/-- C1 (amended): rule 2 applies when the `id` entry's value is `None`
(the host's absent value), not for every falsy value.  For a mapping
whose `id` entry holds `None` and in which some `_id`-suffixed entry is
truthy, `derive_identifier_key` returns the first such truthy entry's
value. -/
theorem derive_null_id_second_rule (es : List (String × Value)) (p : String × Value)
    (h1 : lookupD es "id" = some vNone)
    (h2 : es.find? idCandidate = some p) :
    derive_identifier_key es = Except.ok p.2 :=
  derive_of_none_id (by simp [dictGet, h1]) h2

theorem derive_null_id_second_rule_witness :
    lookupD [("id", vNone), ("device_id", vStr "X1")] "id" = some vNone ∧
    List.find? idCandidate [("id", vNone), ("device_id", vStr "X1")] =
      some ("device_id", vStr "X1") ∧
    derive_identifier_key [("id", vNone), ("device_id", vStr "X1")] =
      Except.ok (vStr "X1") :=
  ⟨rfl, rfl, derive_null_id_second_rule _ ("device_id", vStr "X1") rfl rfl⟩

/-- C2: when the `id` entry is absent or holds `None` (in either case
`obj.get("id")` is `None`), `derive_identifier_key` returns the value
of the first entry in iteration order whose key ends in `_id` and whose
value is truthy; `List.find?` skips exactly the entries whose key lacks
the suffix or whose value is falsy. -/
theorem derive_first_truthy_id (es : List (String × Value)) (p : String × Value)
    (h1 : dictGet es "id" = vNone)
    (h2 : es.find? idCandidate = some p) :
    derive_identifier_key es = Except.ok p.2 :=
  derive_of_none_id h1 h2

theorem derive_first_truthy_id_witness :
    dictGet [("other_id", vNone), ("device_id", vStr "X2")] "id" = vNone ∧
    List.find? idCandidate [("other_id", vNone), ("device_id", vStr "X2")] =
      some ("device_id", vStr "X2") ∧
    derive_identifier_key [("other_id", vNone), ("device_id", vStr "X2")] =
      Except.ok (vStr "X2") :=
  ⟨rfl, rfl, derive_first_truthy_id _ ("device_id", vStr "X2") rfl rfl⟩

/-- C3: `derive_identifier_key` raises `ValueError` with the message
"No suitable identifier key found in object" exactly when
`obj.get("id")` is `None` (rule 1 produced nothing) and no entry has an
`_id`-suffixed key with a truthy value (rule 2 produced nothing); and
every call either returns exactly one identifier or that error, never a
list of candidates. -/
theorem derive_failure_iff :
    ∀ es : List (String × Value),
      (derive_identifier_key es =
          Except.error "No suitable identifier key found in object" ↔
        dictGet es "id" = vNone ∧ es.find? idCandidate = none) ∧
      ((∃ v, derive_identifier_key es = Except.ok v) ∨
        derive_identifier_key es =
          Except.error "No suitable identifier key found in object") := by
  intro es
  by_cases h1 : isNoneV (dictGet es "id")
  · have ha : dictGet es "id" = vNone := (isNoneV_eq_true_iff _).mp h1
    cases h2 : es.find? idCandidate with
    | none =>
      have hs : scan_id es = vNone := scan_id_of_find_none h2
      constructor
      · simp [derive_identifier_key, ha, hs, isNoneV_vNone]
      · right; simp [derive_identifier_key, ha, hs, isNoneV_vNone]
    | some p =>
      have hd := derive_of_none_id ha h2
      constructor
      · rw [hd]; simp [h2]
      · exact Or.inl ⟨p.2, hd⟩
  · have hb : isNoneV (dictGet es "id") = false := by
      cases hc : isNoneV (dictGet es "id")
      · rfl
      · exact absurd hc h1
    have ha : dictGet es "id" ≠ vNone := by
      intro hv
      rw [hv, isNoneV_vNone] at hb
      exact Bool.noConfusion hb
    constructor
    · simp [derive_identifier_key, hb, ha]
    · exact Or.inl ⟨dictGet es "id", by simp [derive_identifier_key, hb]⟩

/-- C4: resolving a multi-segment path stops with `None` as soon as an
intermediate (non-final) value is falsy — present-but-empty included —
and otherwise recurses on that value with the remaining segments.  The
first conjunct covers any intermediate prefix of the path, the second
is the recursive step on the leading segment. -/
theorem get_value_falsy_intermediate :
    (∀ (obj : Value) (pre post : List String), pre ≠ [] → post ≠ [] →
        truthy (get_value_segs obj pre) = false →
        get_value_segs obj (pre ++ post) = vNone) ∧
    (∀ (obj : Value) (first : String) (rest : List String), rest ≠ [] →
        truthy (access obj first) = true →
        get_value_segs obj (first :: rest) = get_value_segs (access obj first) rest) := by
  constructor
  · intro obj pre post hpre hpost hfalsy
    induction pre generalizing obj with
    | nil => exact absurd rfl hpre
    | cons a t ih =>
      cases t with
      | nil =>
        cases post with
        | nil => exact absurd rfl hpost
        | cons b u =>
          have ha : truthy (access obj a) = false := hfalsy
          simp [get_value_segs, ha]
      | cons b u =>
        by_cases hacc : truthy (access obj a)
        · have hrec : get_value_segs obj (a :: b :: u) =
              get_value_segs (access obj a) (b :: u) := by
            simp [get_value_segs, hacc]
          rw [hrec] at hfalsy
          have := ih (access obj a) (by simp) hfalsy
          simpa [get_value_segs, hacc] using this
        · simp only [Bool.not_eq_true] at hacc
          simp [get_value_segs, hacc]
  · intro obj first rest hrest ht
    cases rest with
    | nil => exact absurd rfl hrest
    | cons b u => simp [get_value_segs, ht]

theorem get_value_falsy_intermediate_witness :
    get_value_segs (vDict [("a", vDict [])]) (["a"] ++ ["b"]) = vNone ∧
    get_value_segs (vDict [("location", vDict [("name", vStr "DC1")])])
        ["location", "name"] =
      get_value_segs (access (vDict [("location", vDict [("name", vStr "DC1")])])
        "location") ["name"] ∧
    get_value (vDict [("a", vDict [])]) "a.b" = vNone :=
  ⟨get_value_falsy_intermediate.1 _ ["a"] ["b"] (by simp) (by simp) rfl,
   get_value_falsy_intermediate.2 _ "location" ["name"] (by simp) rfl,
   rfl⟩

/-- C5: a mapping containing the key `id` with a non-`None` value makes
`derive_identifier_key` return that value immediately, whatever other
(`_id`-suffixed or not) entries the mapping holds. -/
theorem derive_id_precedence (es : List (String × Value)) (v : Value)
    (h1 : lookupD es "id" = some v) (h2 : v ≠ vNone) :
    derive_identifier_key es = Except.ok v := by
  have ha : dictGet es "id" = v := by simp [dictGet, h1]
  have hn : isNoneV v = false := isNoneV_eq_false_of_ne h2
  simp [derive_identifier_key, ha, hn]

theorem derive_id_precedence_witness :
    lookupD [("id", vStr "abc"), ("device_id", vStr "zzz")] "id" =
      some (vStr "abc") ∧
    derive_identifier_key [("id", vStr "abc"), ("device_id", vStr "zzz")] =
      Except.ok (vStr "abc") :=
  ⟨rfl, derive_id_precedence _ (vStr "abc") rfl (fun h => Value.noConfusion h)⟩

/-- C6: on a single-segment path, a mapping containing the key with a
truthy value resolves to that value, and a mapping not containing the
key resolves to `None` — first-class absence, not a failure. -/
theorem get_value_single_segment :
    (∀ (es : List (String × Value)) (p : String) (v : Value),
        lookupD es p = some v → truthy v = true →
        get_value_segs (vDict es) [p] = v) ∧
    (∀ (es : List (String × Value)) (p : String),
        lookupD es p = none → get_value_segs (vDict es) [p] = vNone) := by
  constructor
  · intro es p v h _
    simp [get_value_segs, access, dictGet, h]
  · intro es p h
    simp [get_value_segs, access, dictGet, h]

theorem get_value_single_segment_witness :
    get_value_segs (vDict [("name", vStr "DC1")]) ["name"] = vStr "DC1" ∧
    get_value_segs (vDict [("name", vStr "DC1")]) ["status"] = vNone ∧
    get_value (vDict [("location", vDict [("name", vStr "DC1")])])
      "location.name" = vStr "DC1" :=
  ⟨get_value_single_segment.1 _ "name" (vStr "DC1") rfl rfl,
   get_value_single_segment.2 _ "status" rfl,
   rfl⟩

/-- C7: `get_value` never raises for a missing field at any depth: in
the host's exception monad, where an error produced by any field access
would propagate through the binds, every call returns `ok`; missing
keys and failed attribute lookups become `None` because the source uses
`dict.get` and the defaulted three-argument `getattr`. -/
theorem get_value_never_raises :
    ∀ (obj : Value) (segs : List String),
      get_valueE obj segs = Except.ok (get_value_segs obj segs) := by
  intro obj segs
  induction segs generalizing obj with
  | nil => rfl
  | cons first rest ih =>
    cases rest with
    | nil => simp [get_valueE, get_value_segs, accessE_eq_ok]
    | cons b t =>
      rw [show get_valueE obj (first :: b :: t) =
          (accessE obj first >>= fun sub =>
            if truthy sub then get_valueE sub (b :: t) else pure vNone) from rfl,
        accessE_eq_ok, ok_then]
      by_cases ht : truthy (access obj first)
      · simp [get_value_segs, ht, ih]
      · simp only [Bool.not_eq_true] at ht
        simp only [get_value_segs, ht, Bool.false_eq_true, if_false]
        rfl

/-- C8: `get_value` terminates, with recursion depth bounded by the
number of path segments: the budget-instrumented resolver run with
exactly one unit per segment never exhausts its budget and computes the
same result. -/
theorem get_value_depth (obj : Value) (segs : List String) (h : segs ≠ []) :
    get_value_gas segs.length obj segs = some (get_value_segs obj segs) := by
  induction segs generalizing obj with
  | nil => exact absurd rfl h
  | cons a rest ih =>
    cases rest with
    | nil => rfl
    | cons b t =>
      by_cases ht : truthy (access obj a)
      · have hrec := ih (access obj a) (by simp)
        simp only [List.length_cons] at hrec
        simp [get_value_gas, get_value_segs, ht, hrec]
      · simp only [Bool.not_eq_true] at ht
        simp [get_value_gas, get_value_segs, ht]

theorem get_value_depth_witness :
    get_value_gas 2 (vDict [("location", vDict [("name", vStr "DC1")])])
        ["location", "name"] =
      some (get_value_segs (vDict [("location", vDict [("name", vStr "DC1")])])
        ["location", "name"]) :=
  get_value_depth _ ["location", "name"] (by simp)

/-- C9: both functions are deterministic — identical inputs give
identical outputs — and pure: in the state-threaded embeddings, where
each field access returns the record it touched, every call hands its
record back unchanged while computing the same result as the plain
function. -/
theorem get_value_derive_pure :
    (∀ (o1 o2 : Value) (s1 s2 : List String), o1 = o2 → s1 = s2 →
        get_value_segs o1 s1 = get_value_segs o2 s2) ∧
    (∀ d1 d2 : List (String × Value), d1 = d2 →
        derive_identifier_key d1 = derive_identifier_key d2) ∧
    (∀ (obj : Value) (segs : List String),
        get_valueS obj segs = (get_value_segs obj segs, obj)) ∧
    (∀ es : List (String × Value), deriveS es = (derive_identifier_key es, es)) := by
  refine ⟨?_, ?_, get_valueS_eq, deriveS_eq⟩
  · intro o1 o2 s1 s2 ho hs
    rw [ho, hs]
  · intro d1 d2 hd
    rw [hd]

theorem get_value_derive_pure_witness :
    get_value_segs (vDict [("id", vStr "abc")]) ["id"] =
      get_value_segs (vDict [("id", vStr "abc")]) ["id"] ∧
    derive_identifier_key [("id", vStr "abc")] =
      derive_identifier_key [("id", vStr "abc")] ∧
    get_valueS (vDict [("location", vDict [("name", vStr "DC1")])])
        ["location", "name"] =
      (get_value_segs (vDict [("location", vDict [("name", vStr "DC1")])])
        ["location", "name"],
       vDict [("location", vDict [("name", vStr "DC1")])]) ∧
    deriveS [("other_id", vNone), ("device_id", vStr "X2")] =
      (derive_identifier_key [("other_id", vNone), ("device_id", vStr "X2")],
       [("other_id", vNone), ("device_id", vStr "X2")]) :=
  ⟨get_value_derive_pure.1 _ _ _ _ rfl rfl,
   get_value_derive_pure.2.1 _ _ rfl,
   get_value_derive_pure.2.2.1 _ _,
   get_value_derive_pure.2.2.2 _⟩

/-- C10: at the final segment the stored value is returned unchanged
even when falsy (no truthiness test in the single-segment branch), and
a key present with value `None` is indistinguishable from a missing key
at the interface, since `None` is also the absence signal. -/
theorem get_value_final_segment_falsy :
    (∀ (es : List (String × Value)) (k : String) (v : Value),
        lookupD es k = some v → get_value_segs (vDict es) [k] = v) ∧
    (∀ k : String, get_value_segs (vDict [(k, vNone)]) [k] =
        get_value_segs (vDict []) [k]) := by
  constructor
  · intro es k v h
    simp [get_value_segs, access, dictGet, h]
  · intro k
    simp [get_value_segs, access, dictGet, lookupD, List.find?]

theorem get_value_final_segment_falsy_witness :
    get_value_segs (vDict [("n", vInt 0)]) ["n"] = vInt 0 ∧
    get_value_segs (vDict [("s", vStr "")]) ["s"] = vStr "" ∧
    get_value_segs (vDict [("d", vDict [])]) ["d"] = vDict [] ∧
    get_value_segs (vDict [("x", vNone)]) ["x"] =
      get_value_segs (vDict []) ["x"] :=
  ⟨get_value_final_segment_falsy.1 _ "n" (vInt 0) rfl,
   get_value_final_segment_falsy.1 _ "s" (vStr "") rfl,
   get_value_final_segment_falsy.1 _ "d" (vDict []) rfl,
   get_value_final_segment_falsy.2 "x"⟩

end InfrahubSync
